import Mathlib

/-!
Verification of the EZ-Panel network discovery engine
(`src/ez_panel/utils/network_scan.py`) against its specification.

The Python module is shallowly embedded: every function that the claims
depend on is translated into an executable Lean definition.  Interactions
with the operating system (subprocess output, ping results, reverse DNS,
the kernel neighbor table, DHCP lease file contents, ...) are supplied by
an explicit `Env` record, so that `scan_network` becomes a pure function
of its arguments and the environment.  Python values of type
`Optional[str]` become `Option String`; Python truthiness on such values
is `pyT`; the short-circuiting `a or b` on them is `pyOr`.  A Python
function that can raise an exception past its own boundary is modelled
with `Except String`.

String processing is carried out on `List Char` (with `String.mk` /
`String.data` at the boundary) so that every definition evaluates inside
the kernel.
-/

/-- Python truthiness for an `Optional[str]` value: `None` and `""` are falsy. -/
def pyT : Option String → Bool
  | none => false
  | some s => s ≠ ""

/-- Python `a or b` on `Optional[str]` values: yields `a` when `a` is truthy,
otherwise `b` (even when `b` is itself falsy). -/
def pyOr (a b : Option String) : Option String :=
  if pyT a then a else b

/-- Python `a or dflt` where `dflt` is a plain string (used for
`d.get("status") or "online"` and similar). -/
def pyOrS (a : Option String) (dflt : String) : String :=
  match a with
  | some s => if s ≠ "" then s else dflt
  | none => dflt

/-- Whitespace class of Python `str.split()` / `str.strip()` / regex `\s`
(ASCII range, which is all the scanned tool output contains). -/
def isSpacePy (c : Char) : Bool :=
  c = ' ' || c = '\t' || c = '\n' || c = '\r' || c = '\x0b' || c = '\x0c'

/-- List-level `startswith`. -/
def startsWithL : List Char → List Char → Bool
  | [], _ => true
  | _ :: _, [] => false
  | p :: ps, c :: cs => p = c && startsWithL ps cs

/-- Python `s.startswith(pre)`. -/
def pyStarts (s pre : String) : Bool :=
  startsWithL pre.data s.data

/-- Python `str.strip()` (whitespace from both ends). -/
def trimL (cs : List Char) : List Char :=
  ((cs.dropWhile isSpacePy).reverse.dropWhile isSpacePy).reverse

/-- Python `str.strip()` on strings. -/
def pyStrip (s : String) : String :=
  String.mk (trimL s.data)

/-- Splitter core: split `cs` at every non-overlapping occurrence of the
nonempty separator `sep`, left to right (`fuel` bounds the recursion and is
always called with more fuel than there are characters). -/
def splitGo (sep : List Char) : Nat → List Char → List Char → List (List Char)
  | 0, cs, acc => [acc.reverse ++ cs]
  | _ + 1, [], acc => [acc.reverse]
  | fuel + 1, c :: rest, acc =>
    if startsWithL sep (c :: rest) then
      acc.reverse :: splitGo sep fuel ((c :: rest).drop sep.length) []
    else
      splitGo sep fuel rest (c :: acc)

/-- Python `s.split(sep)` for a nonempty separator, on char lists. -/
def splitOnL (sep cs : List Char) : List (List Char) :=
  splitGo sep (cs.length + 1) cs []

/-- Python `s.split(sep)` on strings. -/
def pySplitOn (s sep : String) : List String :=
  (splitOnL sep.data s.data).map String.mk

/-- Re-join char-list fields with a separator between them (`sep.join`). -/
def joinL (sep : List Char) : List (List Char) → List Char
  | [] => []
  | [x] => x
  | x :: xs => x ++ sep ++ joinL sep xs

/-- Python `s.split(sep, 1)`: the part before the first occurrence of `sep`
and, when `sep` occurs, the remainder after it. -/
def pySplitFirst (s sep : String) : String × Option String :=
  match splitOnL sep.data s.data with
  | [] => (s, none)
  | [a] => (String.mk a, none)
  | a :: rest => (String.mk a, some (String.mk (joinL sep.data rest)))

/-- Whitespace splitter core for Python `str.split()` with no argument. -/
def splitWsGo : Nat → List Char → List (List Char)
  | 0, _ => []
  | _ + 1, [] => []
  | fuel + 1, c :: rest =>
    if isSpacePy c then splitWsGo fuel rest
    else
      let word := (c :: rest).takeWhile (fun x => ¬ isSpacePy x)
      word :: splitWsGo fuel ((c :: rest).dropWhile (fun x => ¬ isSpacePy x))

/-- Python `str.split()` with no argument: whitespace runs, empties dropped. -/
def pySplitWs (s : String) : List String :=
  (splitWsGo (s.data.length + 1) s.data).map String.mk

/-- Python `str.splitlines()` for LF-separated text (the only line
terminator produced by the tools the module shells out to).  A trailing
newline yields a final empty field, which every caller in the source skips
as a blank line. -/
def pyLines (s : String) : List String :=
  pySplitOn s "\n"

/-- Python `"x".join(parts)` on strings. -/
def pyJoin (sep : String) (parts : List String) : String :=
  String.mk (joinL sep.data (parts.map String.data))

/-- Decimal digit test matching Python `str.isdigit` on ASCII strings. -/
def isDigitL (cs : List Char) : Bool :=
  cs ≠ [] && cs.all Char.isDigit

/-- Value of a decimal digit list. -/
def decVal (cs : List Char) : Nat :=
  cs.foldl (fun n c => n * 10 + (c.toNat - '0'.toNat)) 0

/-!
### IPv4 addresses and CIDR parsing

`ipaddress.IPv4Address` accepts exactly four dot-separated decimal octets,
each at most three digits, value ≤ 255, with no leading zeros.
`ipaddress.ip_network(s, strict=False)` additionally accepts a `/p` suffix
with a decimal prefix length ≤ 32 and masks away the host bits.  Parse
failures, which raise `ValueError` in Python, are `none` here.
-/

/-- Parse one dotted-quad octet the way `ipaddress.IPv4Address` does. -/
def parseOctet (cs : List Char) : Option Nat :=
  if isDigitL cs && cs.length ≤ 3 && (cs.length = 1 || cs.headD ' ' ≠ '0') then
    let v := decVal cs
    if v ≤ 255 then some v else none
  else none

/-- Parse a dotted-quad IPv4 address into its 32-bit numeric value. -/
def parseIp (s : String) : Option Nat :=
  match splitOnL ['.'] s.data with
  | [a, b, c, d] =>
    match parseOctet a, parseOctet b, parseOctet c, parseOctet d with
    | some x, some y, some z, some w => some (((x * 256 + y) * 256 + z) * 256 + w)
    | _, _, _, _ => none
  | _ => none

/-- Shallow embedding of `_is_ipv4`: `ipaddress.IPv4Address(s)` succeeds. -/
def _is_ipv4 (s : String) : Bool :=
  (parseIp s).isSome

/-- Zero the host bits of `ip` under a prefix length `plen` (strict=False). -/
def applyMask (ip plen : Nat) : Nat :=
  ip / 2 ^ (32 - plen) * 2 ^ (32 - plen)

/-- Parse a CIDR string as `ipaddress.ip_network(s, strict=False)` does,
returning the (masked) network address and the prefix length. -/
def parseCidr (s : String) : Option (Nat × Nat) :=
  match splitOnL ['/'] s.data with
  | [a] => (parseIp (String.mk a)).map (fun ip => (ip, 32))
  | [a, p] =>
    match parseIp (String.mk a), (if isDigitL p then some (decVal p) else none) with
    | some ip, some plen => if plen ≤ 32 then some (applyMask ip plen, plen) else none
    | _, _ => none
  | _ => none

/-- Render a 32-bit numeric address back to dotted-quad form. -/
def natToIp (n : Nat) : String :=
  toString (n / 2 ^ 24 % 256) ++ "." ++ toString (n / 2 ^ 16 % 256) ++ "." ++
    toString (n / 2 ^ 8 % 256) ++ "." ++ toString (n % 256)

/-- Render a network as Python `str(net)` does: `a.b.c.d/plen`. -/
def netStr (net plen : Nat) : String :=
  natToIp net ++ "/" ++ toString plen

/-- Host addresses of a network, as `IPv4Network.hosts()` enumerates them:
for /31 and /32 every address, otherwise everything strictly between the
network and broadcast addresses. -/
def hostsOf (net plen : Nat) : List Nat :=
  if 31 ≤ plen then (List.range (2 ^ (32 - plen))).map (fun i => net + i)
  else (List.range (2 ^ (32 - plen) - 2)).map (fun i => net + 1 + i)

/-!
### MAC addresses and OUI vendor lookup
-/

/-- Shallow embedding of `_normalize_mac`: strip, uppercase, `-` → `:`. -/
def _normalize_mac (mac : String) : String :=
  String.mk (((trimL mac.data).map Char.toUpper).map (fun c => if c = '-' then ':' else c))

/-- One uppercase-hex character of the class `[0-9A-F]`. -/
def isHexUp (c : Char) : Bool :=
  ('0' ≤ c && c ≤ '9') || ('A' ≤ c && c ≤ 'F')

/-- The canonical-MAC regex `^[0-9A-F]{2}(:[0-9A-F]{2}){5}$` as a decidable
predicate: six colon-separated groups of exactly two uppercase hex digits. -/
def isCanonicalMac (s : String) : Bool :=
  let parts := splitOnL [':'] s.data
  parts.length = 6 && parts.all (fun p => p.length = 2 && p.all isHexUp)

/-- Association-list lookup standing in for a Python `dict.get`. -/
def dictGet (m : List (String × String)) (k : String) : Option String :=
  (m.find? (fun kv => kv.1 = k)).map (fun kv => kv.2)

/-- First three colon-separated groups of a MAC, joined by colons
(`":".join(mac.split(":")[:3])`). -/
def macOui3 (mac : String) : String :=
  pyJoin ":" ((pySplitOn mac ":").take 3)

/-- Shallow embedding of `_vendor_from_mac`.  The memoized `_load_oui_map`
table is passed in as `oui` (it is loaded once from a packaged JSON file;
its contents are environment data for this model). -/
def _vendor_from_mac (oui : List (String × String)) (mac : Option String) : Option String :=
  if ¬ pyT mac then none
  else
    let m := _normalize_mac (mac.getD "")
    if ¬ isCanonicalMac m then none
    else dictGet oui (macOui3 m)

/-!
### Device records

The module's device dictionaries have string values under the keys
`name, ip, status, type, mac, vendor`; any key can be absent or `None`,
both of which collapse to `none` here.
-/

/-- One device dictionary. -/
structure Device where
  name : Option String := none
  ip : Option String := none
  status : Option String := none
  type : Option String := none
  mac : Option String := none
  vendor : Option String := none
deriving DecidableEq, Repr

-- Decidable equality on scan results, to evaluate the model at concrete
-- environments.
deriving instance DecidableEq for Except

/-- One DHCP lease record: `parse_dnsmasq_leases` / `parse_dhcpd_leases`
always populate all three keys with plain strings. -/
structure Lease where
  ip : String
  mac : String
  name : String
deriving DecidableEq, Repr

/-- Python `sub in s` membership test. -/
def pyContains (s sub : String) : Bool :=
  (splitOnL sub.data s.data).length ≥ 2

/-!
### Backend output parsers
-/

/-- Shallow embedding of `_parse_arp_scan`: one record per tab-separated
`IP MAC vendor` line, banner lines skipped, first field must be IPv4. -/
def _parse_arp_scan (out : String) : List Device :=
  (pyLines out).filterMap fun rawLine =>
    let line := pyStrip rawLine
    if line = "" || pyStarts line "Interface:" || pyStarts line "Starting arp-scan"
        || pyStarts line "Ending arp-scan" then
      none
    else
      let parts := (pySplitOn line "\t").map pyStrip
      if parts.length ≥ 2 && _is_ipv4 (parts.headD "") then
        some { ip := some (parts.headD ""), mac := some (parts[1]?.getD ""),
               vendor := if parts.length ≥ 3 then some (parts[2]?.getD "") else none }
      else none

/-- Flush the block under construction: appended only when it captured a
truthy `ip` (`if current.get("ip")`). -/
def nmapFlush (cur : Device) (acc : List Device) : List Device :=
  if pyT cur.ip then acc ++ [cur] else acc

/-- Worker for `_parse_nmap_sn`, one stripped line at a time.  A
`MAC Address:` line with nothing after the colon makes
`rest.split()[0]` raise `IndexError` in Python, modelled as `.error`. -/
def parseNmapGo : List String → Device → List Device → Except String (List Device)
  | [], cur, acc => .ok (nmapFlush cur acc)
  | rawLine :: rest, cur, acc =>
    let line := pyStrip rawLine
    if pyStarts line "Nmap scan report for" then
      let acc := nmapFlush cur acc
      if pyContains line "(" && pyContains line ")" then
        let ip := pyStrip (String.mk ((splitOnL [')'] ((splitOnL ['('] line.data).getLastD [])).headD []))
        let nm := pyStrip (String.mk ((splitOnL ['('] (((pySplitFirst line "for").2).getD "").data).headD []))
        parseNmapGo rest { ip := some ip, name := some nm } acc
      else
        let ip := (pySplitWs line).getLastD ""
        parseNmapGo rest { ip := some ip, name := none } acc
    else if pyStarts line "MAC Address:" then
      let afterColon := pyStrip (((pySplitFirst line ":").2).getD "")
      match pySplitWs afterColon with
      | [] => .error "IndexError: list index out of range"
      | mac :: _ =>
        let vendor :=
          if pyContains afterColon "(" then
            some (String.mk ((splitOnL [')'] ((splitOnL ['('] afterColon.data).getLastD [])).headD []))
          else none
        parseNmapGo rest { cur with mac := some mac, vendor := vendor } acc
    else
      parseNmapGo rest cur acc

/-- Shallow embedding of `_parse_nmap_sn`. -/
def _parse_nmap_sn (out : String) : Except String (List Device) :=
  parseNmapGo (pyLines out) {} []

/-!
### DHCP lease parsing

`parse_dhcpd_leases` works by regular expressions; the three patterns used
(`lease\s+(\d+\.\d+\.\d+\.\d+)\s*\{(.*?)\}` with DOTALL,
`hardware\s+ethernet\s+([0-9a-f:]+);` and
`client-hostname\s+"([^"]+)";`, both IGNORECASE) never backtrack past a
greedy run, because each run is followed by a character outside its class.
They are therefore implemented as direct maximal-munch scanners.
-/

/-- Consume a literal, optionally case-insensitively. -/
def expectLit (ci : Bool) : List Char → List Char → Option (List Char)
  | [], cs => some cs
  | _ :: _, [] => none
  | p :: ps, c :: cs =>
    if (if ci then p.toLower = c.toLower else p = c) then expectLit ci ps cs else none

/-- Consume one-or-more characters of a class, returning run and rest. -/
def takeW1 (p : Char → Bool) (cs : List Char) : Option (List Char × List Char) :=
  let t := cs.takeWhile p
  if t = [] then none else some (t, cs.dropWhile p)

/-- Consume `\s+`. -/
def spaces1 (cs : List Char) : Option (List Char) :=
  (takeW1 isSpacePy cs).map (fun r => r.2)

/-- Attempt `lease\s+(\d+\.\d+\.\d+\.\d+)\s*\{(.*?)\}` at the head of the
input; on success return the captured address, the lazy body (everything
up to the first closing brace), and the input after that brace. -/
def tryMatchLease (cs : List Char) : Option (String × List Char × List Char) := do
  let cs ← expectLit false "lease".data cs
  let cs ← spaces1 cs
  let (o1, cs) ← takeW1 Char.isDigit cs
  let cs ← expectLit false ['.'] cs
  let (o2, cs) ← takeW1 Char.isDigit cs
  let cs ← expectLit false ['.'] cs
  let (o3, cs) ← takeW1 Char.isDigit cs
  let cs ← expectLit false ['.'] cs
  let (o4, cs) ← takeW1 Char.isDigit cs
  let cs := cs.dropWhile isSpacePy
  let cs ← expectLit false ['\x7b'] cs
  let body := cs.takeWhile (fun c => c ≠ '\x7d')
  match cs.dropWhile (fun c => c ≠ '\x7d') with
  | [] => none
  | _ :: tail =>
    some (String.mk (o1 ++ '.' :: o2 ++ '.' :: o3 ++ '.' :: o4), body, tail)

/-- Leftmost non-overlapping matches of the lease-block pattern
(`re.findall` semantics); `fuel` bounds the scan and is supplied as the
input length plus one. -/
def findLeaseGo : Nat → List Char → List (String × List Char)
  | 0, _ => []
  | _ + 1, [] => []
  | fuel + 1, c :: rest =>
    match tryMatchLease (c :: rest) with
    | some (ip, body, tail) => (ip, body) :: findLeaseGo fuel tail
    | none => findLeaseGo fuel rest

/-- All lease blocks of a file's contents. -/
def findLeaseBlocks (cs : List Char) : List (String × List Char) :=
  findLeaseGo (cs.length + 1) cs

/-- Character class `[0-9a-f:]` under IGNORECASE. -/
def isMacClass (c : Char) : Bool :=
  c.isDigit || ('a' ≤ c && c ≤ 'f') || ('A' ≤ c && c ≤ 'F') || c = ':'

/-- Attempt `hardware\s+ethernet\s+([0-9a-f:]+);` at the head of the input. -/
def tryHw (cs : List Char) : Option (List Char) := do
  let cs ← expectLit true "hardware".data cs
  let cs ← spaces1 cs
  let cs ← expectLit true "ethernet".data cs
  let cs ← spaces1 cs
  let (grp, cs) ← takeW1 isMacClass cs
  match cs with
  | ';' :: _ => some grp
  | _ => none

/-- The first match of the hardware-ethernet pattern (`re.search`). -/
def searchHw : List Char → Option String
  | [] => none
  | c :: rest =>
    match tryHw (c :: rest) with
    | some grp => some (String.mk grp)
    | none => searchHw rest

/-- Attempt `client-hostname\s+"([^"]+)";` at the head of the input. -/
def tryHost (cs : List Char) : Option (List Char) := do
  let cs ← expectLit true "client-hostname".data cs
  let cs ← spaces1 cs
  let cs ← expectLit false ['"'] cs
  let (grp, cs) ← takeW1 (fun c => c ≠ '"') cs
  match cs with
  | '"' :: ';' :: _ => some grp
  | _ => none

/-- The first match of the client-hostname pattern (`re.search`). -/
def searchHost : List Char → Option String
  | [] => none
  | c :: rest =>
    match tryHost (c :: rest) with
    | some grp => some (String.mk grp)
    | none => searchHost rest

/-- Shallow embedding of `parse_dnsmasq_leases`; the file's lines (empty
when the file is missing, as `_read_file_lines` swallows errors) are
passed in. -/
def parse_dnsmasq_leases (fileLines : List String) : List Lease :=
  fileLines.filterMap fun line =>
    let parts := pySplitWs (pyStrip line)
    if parts.length ≥ 4 && _is_ipv4 (parts[2]?.getD "") then
      some { ip := parts[2]?.getD "", mac := parts[1]?.getD "",
             name := if parts[3]?.getD "" ≠ "*" then parts[3]?.getD "" else "" }
    else none

/-- Shallow embedding of `parse_dhcpd_leases` on the file's lines. -/
def parse_dhcpd_leases (fileLines : List String) : List Lease :=
  let content := pyJoin "\n" fileLines
  (findLeaseBlocks content.data).filterMap fun blk =>
    if ¬ _is_ipv4 blk.1 then none
    else
      some { ip := blk.1,
             mac := ((searchHw blk.2).getD ""),
             name := ((searchHost blk.2).getD "") }

/-- Shallow embedding of `discover_dhcp_leases`: both file formats
concatenated, MAC fields normalized when truthy. -/
def discover_dhcp_leases (dnsmasqLines dhcpdLines : List String) : List Lease :=
  (parse_dnsmasq_leases dnsmasqLines ++ parse_dhcpd_leases dhcpdLines).map fun l =>
    if l.mac ≠ "" then { l with mac := _normalize_mac l.mac } else l

/-!
### Environment

Everything `scan_network` learns from the operating system is collected in
`Env`: which executables `shutil.which` finds, what the spawned processes
print, which hosts answer a ping, what reverse DNS says, the kernel
neighbor table, the packaged OUI table, the SSDP/mDNS replies and the DHCP
lease files.  `discover_local_cidr` is pure plumbing over `ip route` / `ip
addr` JSON plus a hostname heuristic; its outcome is supplied directly as
`localCidr`.
-/

/-- One entry of an interface's `addr_info` array from `ip -j addr`. -/
structure AddrInfo where
  family : Option String := none
  addrLocal : Option String := none
  prefixlen : Option Nat := none
deriving DecidableEq, Repr

/-- One interface object from `ip -j addr`. -/
structure Iface where
  ifname : Option String := none
  addr_info : List AddrInfo := []
deriving DecidableEq, Repr

/-- The OS-facing surroundings of one scan invocation. -/
structure Env where
  /-- Parsed `ip -j addr` output; `none` when the platform check, the
  executable lookup, the process, or the JSON parse fails. -/
  ifaces : Option (List Iface) := none
  /-- Result of `discover_local_cidr()`. -/
  localCidr : Option String := none
  /-- `shutil.which("arp-scan")` finds the executable. -/
  hasArpScan : Bool := false
  /-- `shutil.which("nmap")` finds the executable. -/
  hasNmap : Bool := false
  /-- Exit code and stdout of `arp-scan --localnet --numeric --timeout=200`. -/
  arpScan : Nat × String := (1, "")
  /-- Exit code and stdout of `nmap -sn CIDR`, per CIDR argument. -/
  nmap : String → Nat × String := fun _ => (1, "")
  /-- Outcome of `_ping_once` per host address (False also covers a missing
  ping executable). -/
  pingAlive : String → Bool := fun _ => false
  /-- Outcome of `_reverse_dns` per address (the source falls back to the
  address itself on lookup failure). -/
  reverseDns : String → String := fun ip => ip
  /-- The ip→mac pairs of `_arp_neighbors()` (a dict, so keys are distinct). -/
  neighbors : List (String × String) := []
  /-- The memoized `_load_oui_map()` table. -/
  oui : List (String × String) := []
  /-- Devices returned by `discover_ssdp_devices` (empty on any failure). -/
  ssdp : List Device := []
  /-- Devices returned by `discover_mdns_devices` (empty on any failure). -/
  mdns : List Device := []
  /-- Lines of `/var/lib/misc/dnsmasq.leases` (empty when unreadable). -/
  dnsmasqLines : List String := []
  /-- Lines of `/var/lib/dhcp/dhcpd.leases` (empty when unreadable). -/
  dhcpdLines : List String := []

/-- Shallow embedding of `discover_local_cidr` (outcome supplied by the
environment, see `Env.localCidr`). -/
def discover_local_cidr (env : Env) : Option String :=
  env.localCidr

/-!
### Subnet resolver: `discover_all_local_cidrs`
-/

/-- Filter chain applied to one `addr_info` entry (the body of the inner
loop of `discover_all_local_cidrs`, each `continue` becoming `none`). -/
def addrCand (maxp : Nat) (ai : AddrInfo) : Option String :=
  if ai.family ≠ some "inet" then none
  else
    match ai.addrLocal, ai.prefixlen with
    | some l, some p =>
      if l = "" then none
      else if pyStarts l "127." then none
      else
        match parseCidr (l ++ "/" ++ toString p) with
        | none => none
        | some (net, pl) =>
          let s := netStr net pl
          if pyStarts s "169.254." then none
          else if pl ≤ 8 && ¬ (pyStarts s "10." || pyStarts s "172." || pyStarts s "192.168.") then none
          else if maxp < pl then none
          else some s
    | _, _ => none

/-- Candidate CIDR strings of one interface (skipped entirely when the
name is falsy or starts with `lo`). -/
def ifaceCands (maxp : Nat) (iface : Iface) : List String :=
  if ¬ pyT iface.ifname || pyStarts (iface.ifname.getD "") "lo" then []
  else iface.addr_info.filterMap (addrCand maxp)

/-- Candidate CIDR strings in discovery order, before de-duplication. -/
def cidrCandidates (env : Env) (maxp : Nat) : List String :=
  match env.ifaces with
  | none => []
  | some ifs => ifs.flatMap (ifaceCands maxp)

/-- Order-preserving first-occurrence de-duplication (the source's `seen`
set combined with `cidrs.append`). -/
def dedupGo : List String → List String → List String
  | _, [] => []
  | seen, x :: xs => if x ∈ seen then dedupGo seen xs else x :: dedupGo (x :: seen) xs

/-- De-duplicate, keeping the first occurrence of each string. -/
def dedupFirst (l : List String) : List String :=
  dedupGo [] l

/-- Shallow embedding of `discover_all_local_cidrs`. -/
def discover_all_local_cidrs (env : Env) (maxp : Nat) : List String :=
  let cidrs := dedupFirst (cidrCandidates env maxp)
  if cidrs = [] then
    match discover_local_cidr env with
    | some c => if c ≠ "" then [c] else []
    | none => []
  else cidrs

/-!
### Probers and the enrichment pipeline
-/

/-- Shallow embedding of `_ping_sweep`.  The thread pool's completion
order is nondeterministic; the model appends records in host order, and
every property proved about it (count, IP set, statuses) is insensitive
to the order.  An unparseable CIDR raises `ValueError` in Python. -/
def _ping_sweep (env : Env) (cidr : String) (include_offline : Bool) : Except String (List Device) :=
  match parseCidr cidr with
  | none => .error "ValueError: does not appear to be an IPv4 or IPv6 network"
  | some (net, pl) =>
    .ok ((hostsOf net pl).filterMap fun h =>
      let ip := natToIp h
      let alive := env.pingAlive ip
      if alive || include_offline then
        some { ip := some ip,
               name := some (if alive then env.reverseDns ip else ip),
               status := some (if alive then "online" else "offline"),
               type := some "unknown" }
      else none)

/-- The `normalize` closure inside `scan_network`: keep records with a
valid IPv4 `ip`, defaulting `name` (reverse DNS), `status` and `type`. -/
def normalizeRecords (env : Env) (items : List Device) : List Device :=
  items.filterMap fun d =>
    match d.ip with
    | none => none
    | some ip =>
      if ip = "" || ¬ _is_ipv4 ip then none
      else
        some { name := some (pyOrS d.name (env.reverseDns ip)),
               ip := some ip,
               status := some (pyOrS d.status "online"),
               type := some (pyOrS d.type "unknown"),
               mac := d.mac,
               vendor := d.vendor }

/-- Shallow embedding of `_merge_mac_vendor`.  The source builds
`ip_to_dev`, a dict whose value for each truthy IP is the last list entry
with that IP, then for every neighbor entry sets
`dev["mac"] = dev.get("mac") or mac` on that representative. -/
def _merge_mac_vendor (devices : List Device) (neighbors : List (String × String)) : List Device :=
  devices.enum.map fun idp =>
    match idp.2.ip with
    | some ip =>
      if ip ≠ "" && (devices.drop (idp.1 + 1)).all (fun d2 => d2.ip ≠ some ip) then
        { idp.2 with
          mac := neighbors.foldl (fun m kv => if kv.1 = ip then pyOr m (some kv.2) else m) idp.2.mac }
      else idp.2
    | none => idp.2

/-- The vendor-fill loop: look up the OUI table when `vendor` is falsy and
`mac` truthy. -/
def fillVendors (oui : List (String × String)) (devices : List Device) : List Device :=
  devices.map fun d =>
    if ¬ pyT d.vendor && pyT d.mac then { d with vendor := _vendor_from_mac oui d.mac } else d

/-- The final loop of `scan_network`: any status other than exactly
`online` or `offline` is coerced to `online`. -/
def coerceStatus (devices : List Device) : List Device :=
  devices.map fun d =>
    if d.status ≠ some "online" && d.status ≠ some "offline" then
      { d with status := some "online" }
    else d

/-!
### Deep-discovery merge

The merge index is a Python dict keyed by IP: insertion order is
preserved, updating an existing key keeps its position.
-/

/-- Dict assignment `idx[k] = v`. -/
def upsert (idx : List (String × Device)) (k : String) (v : Device) : List (String × Device) :=
  if (idx.find? (fun kv => kv.1 = k)).isSome then
    idx.map (fun kv => if kv.1 = k then (k, v) else kv)
  else idx ++ [(k, v)]

/-- Dict lookup `idx.get(k)` / `k in idx`. -/
def idxGet (idx : List (String × Device)) (k : String) : Option Device :=
  (idx.find? (fun kv => kv.1 = k)).map (fun kv => kv.2)

/-- `idx = {d.get("ip"): d for d in devices if d.get("ip")}`. -/
def buildIdx (devices : List Device) : List (String × Device) :=
  devices.foldl
    (fun idx d =>
      match d.ip with
      | some ip => if ip ≠ "" then upsert idx ip d else idx
      | none => idx)
    []

/-- Field fills for an SSDP/mDNS record whose IP already exists in the
index: `name` only when falsy, `type` only when currently `"unknown"`;
`status`, `mac` and `vendor` are not touched. -/
def mergeExtraInto (base extra : Device) : Device :=
  { base with
    name := pyOr base.name extra.name,
    type := if base.type ≠ some "unknown" then base.type else pyOr extra.type (some "unknown") }

/-- The `for extra in ssdp + mdns` merge loop. -/
def mergeExtras (idx : List (String × Device)) (extras : List Device) : List (String × Device) :=
  extras.foldl
    (fun idx extra =>
      match extra.ip with
      | some ip =>
        if ip = "" then idx
        else
          match idxGet idx ip with
          | some base => upsert idx ip (mergeExtraInto base extra)
          | none =>
            upsert idx ip
              { ip := some ip,
                name := pyOr extra.name (some ip),
                status := pyOr extra.status (some "online"),
                type := pyOr extra.type (some "unknown") }
      | none => idx)
    idx

/-- Field fills for a DHCP lease whose IP already exists in the index. -/
def mergeLeaseInto (oui : List (String × String)) (base : Device) (l : Lease) : Device :=
  let b1 := { base with mac := pyOr base.mac (some l.mac) }
  let b2 := { b1 with name := pyOr b1.name (pyOr (some l.name) b1.name) }
  if ¬ pyT b2.vendor && l.mac ≠ "" then
    { b2 with vendor := _vendor_from_mac oui (some l.mac) }
  else b2

/-- The `for lease in leases` merge loop: new IPs are inserted (as
offline) only when `include_offline` is requested. -/
def mergeLeases (oui : List (String × String)) (idx : List (String × Device))
    (leases : List Lease) (include_offline : Bool) : List (String × Device) :=
  leases.foldl
    (fun idx l =>
      if l.ip = "" then idx
      else
        match idxGet idx l.ip with
        | some base => upsert idx l.ip (mergeLeaseInto oui base l)
        | none =>
          if include_offline then
            upsert idx l.ip
              { ip := some l.ip,
                name := some (if l.name ≠ "" then l.name else l.ip),
                status := some "offline",
                type := some "unknown",
                mac := some l.mac,
                vendor := if l.mac ≠ "" then _vendor_from_mac oui (some l.mac) else none }
          else idx)
    idx

/-- Lines 740–783 of the module: index the base list by IP, fold in
SSDP+mDNS records, then DHCP leases, and take the dict's values. -/
def deepMerge (oui : List (String × String)) (devices ssdpMdns : List Device)
    (leases : List Lease) (include_offline : Bool) : List Device :=
  let idx := buildIdx devices
  let idx := mergeExtras idx ssdpMdns
  let idx := mergeLeases oui idx leases include_offline
  idx.map (fun kv => kv.2)

/-!
### Backend selection and `scan_network`
-/

/-- The `method == "auto"` resolution: arp-scan if present, else nmap if
present, else ping (executable lookup only, lines 675–682). -/
def resolveMethod (env : Env) (method : String) : String :=
  if method = "auto" then
    if env.hasArpScan then "arp-scan" else if env.hasNmap then "nmap" else "ping"
  else method

/-- The three backend stages of `scan_network` (lines 684–708), returning
`backends_tried` together with the base device list.  An arp-scan failure
(non-zero exit or empty output) sets `chosen = "ping"`, so the nmap stage
is skipped; an nmap failure likewise falls to ping.  The only raising path
is `_ping_sweep` on an unparseable CIDR, plus `_parse_nmap_sn` on a
pathological `MAC Address:` line. -/
def runBackends (env : Env) (cidr : String) (include_offline : Bool) (method : String) :
    List String × Except String (List Device) :=
  let chosen := resolveMethod env method
  if chosen = "arp-scan" then
    if env.arpScan.1 = 0 && env.arpScan.2 ≠ "" then
      (["arp-scan"], .ok (normalizeRecords env (_parse_arp_scan env.arpScan.2)))
    else
      (["arp-scan", "ping"], _ping_sweep env cidr include_offline)
  else if chosen = "nmap" then
    let r := env.nmap cidr
    if r.1 = 0 && r.2 ≠ "" then
      match _parse_nmap_sn r.2 with
      | .ok parsed => (["nmap"], .ok (normalizeRecords env parsed))
      | .error e => (["nmap"], .error e)
    else
      (["nmap", "ping"], _ping_sweep env cidr include_offline)
  else if chosen = "ping" then
    (["ping"], _ping_sweep env cidr include_offline)
  else
    ([], .ok [])

/-- The non-`"all"` body of `scan_network` for an already-resolved CIDR:
backend selection, ARP-neighbor merge, OUI vendor fill, optional deep
discovery, final status coercion. -/
def scanScalar (env : Env) (cidr : String) (include_offline : Bool) (method : String)
    (deep_discovery : Bool) : Except String (List Device) :=
  match (runBackends env cidr include_offline method).2 with
  | .error e => .error e
  | .ok base =>
    let devices := _merge_mac_vendor base env.neighbors
    let devices := fillVendors env.oui devices
    let devices :=
      if deep_discovery then
        deepMerge env.oui devices (env.ssdp ++ env.mdns)
          (discover_dhcp_leases env.dnsmasqLines env.dhcpdLines) include_offline
      else devices
    .ok (coerceStatus devices)

/-- `cidr = subnet or discover_local_cidr()`, followed by
`if not cidr: return []` — the `none` result selects the empty return. -/
def resolveSubnet (env : Env) (subnet : Option String) : Option String :=
  let c :=
    match subnet with
    | some s => if s = "" then discover_local_cidr env else some s
    | none => discover_local_cidr env
  match c with
  | some s => if s = "" then none else some s
  | none => none

/-- One step of the `subnet == "all"` aggregation:
`if ip and ip not in results: results[ip] = dev` (first writer wins, the
dict only ever gains keys). -/
def aggStep (results : List (String × Device)) (dev : Device) : List (String × Device) :=
  match dev.ip with
  | some ip =>
    if ip ≠ "" && (results.find? (fun kv => kv.1 = ip)).isNone then results ++ [(ip, dev)]
    else results
  | none => results

/-- Merge per-subnet result lists into the `results` dict and take its
values.  The thread pool yields the per-subnet lists in nondeterministic
completion order; the deduplication property is proved for every order. -/
def aggregateAll (lists : List (List Device)) : List Device :=
  (lists.foldl (fun res lst => lst.foldl aggStep res) []).map (fun kv => kv.2)

/-- Shallow embedding of `scan_network`.  For `subnet == "all"` the source
recurses once per discovered CIDR; discovered CIDRs are `str(net)`
renderings and never the literal `"all"`, so the recursion has depth one
and is modelled by calling the scalar body directly.  Exceptions of the
per-subnet futures are swallowed (`except Exception: lst = []`). -/
def scan_network (env : Env) (subnet : Option String) (include_offline : Bool)
    (method : String) (deep_discovery : Bool) : Except String (List Device) :=
  if subnet = some "all" then
    .ok (aggregateAll ((discover_all_local_cidrs env 30).map fun s =>
      match scanScalar env s include_offline method deep_discovery with
      | .ok l => l
      | .error _ => []))
  else
    match resolveSubnet env subnet with
    | none => .ok []
    | some cidr => scanScalar env cidr include_offline method deep_discovery

/-!
### Pipeline lemmas

The enrichment stages after the backend (`_merge_mac_vendor`,
`fillVendors`, `coerceStatus`) are per-element rewrites: they preserve
length and every field they do not explicitly assign.
-/

/-- Projections untouched by `_merge_mac_vendor` (everything but `mac`). -/
theorem mmv_proj {α : Type} (ds : List Device) (nb : List (String × String))
    (p : Device → α) (hp : ∀ d m, p { d with mac := m } = p d) :
    (_merge_mac_vendor ds nb).map p = ds.map p := by
  unfold _merge_mac_vendor
  rw [List.map_map]
  conv_rhs => rw [← List.enum_map_snd ds, List.map_map]
  refine List.map_congr_left ?_
  rintro ⟨i, d⟩ -
  simp only [Function.comp_apply]
  obtain ⟨nm, dip, st, ty, mc, vd⟩ := d
  cases dip with
  | none => rfl
  | some ip =>
    dsimp only
    split
    · exact hp ⟨nm, some ip, st, ty, mc, vd⟩ _
    · rfl

/-- `_merge_mac_vendor` keeps the list length. -/
theorem mmv_length (ds : List Device) (nb : List (String × String)) :
    (_merge_mac_vendor ds nb).length = ds.length := by
  unfold _merge_mac_vendor
  rw [List.length_map, List.enum_length]

/-- Projections untouched by `fillVendors` (everything but `vendor`). -/
theorem fill_proj {α : Type} (oui : List (String × String)) (ds : List Device)
    (p : Device → α) (hp : ∀ d v, p { d with vendor := v } = p d) :
    (fillVendors oui ds).map p = ds.map p := by
  unfold fillVendors
  rw [List.map_map]
  refine List.map_congr_left ?_
  intro d _
  simp only [Function.comp_apply]
  split
  · exact hp d _
  · rfl

/-- Projections untouched by `coerceStatus` (everything but `status`). -/
theorem coerce_proj {α : Type} (ds : List Device)
    (p : Device → α) (hp : ∀ d s, p { d with status := s } = p d) :
    (coerceStatus ds).map p = ds.map p := by
  unfold coerceStatus
  rw [List.map_map]
  refine List.map_congr_left ?_
  intro d _
  simp only [Function.comp_apply]
  split
  · exact hp d _
  · rfl

/-- Every record that leaves `coerceStatus` has a valid status. -/
theorem coerce_status_valid (ds : List Device) :
    ∀ d ∈ coerceStatus ds, d.status = some "online" ∨ d.status = some "offline" := by
  intro d hd
  unfold coerceStatus at hd
  rw [List.mem_map] at hd
  obtain ⟨d0, -, rfl⟩ := hd
  split
  · left; rfl
  · rename_i h
    by_cases h1 : d0.status = some "online"
    · exact Or.inl h1
    by_cases h2 : d0.status = some "offline"
    · exact Or.inr h2
    · exact absurd (by simp [h1, h2]) h

/-- `coerceStatus` leaves an already-valid status unchanged. -/
theorem coerce_keeps_valid (ds : List Device)
    (h : ∀ d ∈ ds, d.status = some "online" ∨ d.status = some "offline") :
    coerceStatus ds = ds := by
  unfold coerceStatus
  conv_rhs => rw [← List.map_id ds]
  refine List.map_congr_left ?_
  intro d hd
  rcases h d hd with h1 | h1 <;> simp [h1]

/-- The neighbor fold either leaves the accumulator alone or lands on one
of the neighbor MAC values. -/
theorem foldl_pyOr_mem (nb : List (String × String)) (ip : String) (m0 : Option String) :
    nb.foldl (fun m kv => if kv.1 = ip then pyOr m (some kv.2) else m) m0 ∈
      m0 :: nb.map (fun kv => some kv.2) := by
  induction nb generalizing m0 with
  | nil => simp
  | cons kv rest ih =>
    simp only [List.foldl_cons, List.map_cons]
    have hstep : (if kv.1 = ip then pyOr m0 (some kv.2) else m0) = m0 ∨
        (if kv.1 = ip then pyOr m0 (some kv.2) else m0) = some kv.2 := by
      split
      · unfold pyOr; split
        · exact Or.inl rfl
        · exact Or.inr rfl
      · exact Or.inl rfl
    rcases hstep with h | h <;> rw [h]
    · rcases List.mem_cons.mp (ih m0) with h2 | h2
      · exact List.mem_cons.mpr (Or.inl h2)
      · exact List.mem_cons.mpr (Or.inr (List.mem_cons.mpr (Or.inr h2)))
    · rcases List.mem_cons.mp (ih (some kv.2)) with h2 | h2
      · exact List.mem_cons.mpr (Or.inr (List.mem_cons.mpr (Or.inl h2)))
      · exact List.mem_cons.mpr (Or.inr (List.mem_cons.mpr (Or.inr h2)))

/-- Every MAC leaving `_merge_mac_vendor` was already on the record or
came from the neighbor table. -/
theorem mmv_mac_mem (ds : List Device) (nb : List (String × String)) :
    ∀ d2 ∈ _merge_mac_vendor ds nb,
      d2.mac ∈ ds.map Device.mac ∨ d2.mac ∈ nb.map (fun kv => some kv.2) := by
  intro d2 hd2
  unfold _merge_mac_vendor at hd2
  rw [List.mem_map] at hd2
  obtain ⟨⟨i, d⟩, hmem, rfl⟩ := hd2
  have hd : d ∈ ds := by
    have := List.mem_map_of_mem Prod.snd hmem
    rwa [List.enum_map_snd] at this
  obtain ⟨nm, dip, st, ty, mc, vd⟩ := d
  cases dip with
  | none => exact Or.inl (List.mem_map_of_mem Device.mac hd)
  | some ip =>
    dsimp only
    split
    · rcases List.mem_cons.mp (foldl_pyOr_mem nb ip mc) with h | h
      · rw [h]
        exact Or.inl (List.mem_map_of_mem Device.mac hd)
      · exact Or.inr h
    · exact Or.inl (List.mem_map_of_mem Device.mac hd)

/-- `normalizeRecords` copies the `mac` field verbatim. -/
theorem normalize_mac_mem (env : Env) (items : List Device) :
    ∀ d2 ∈ normalizeRecords env items, d2.mac ∈ items.map Device.mac := by
  intro d2 hd2
  unfold normalizeRecords at hd2
  rw [List.mem_filterMap] at hd2
  obtain ⟨d, hd, hsome⟩ := hd2
  cases hdip : d.ip with
  | none => rw [hdip] at hsome; exact absurd hsome (by simp)
  | some ip =>
    rw [hdip] at hsome
    dsimp only at hsome
    split at hsome
    · simp at hsome
    · cases hsome
      show d.mac ∈ List.map Device.mac items
      exact List.mem_map_of_mem Device.mac hd

/-- `scan_network` on an explicit CIDR (neither `"all"` nor empty) runs
the scalar body. -/
theorem scan_some_eq (env : Env) (cidr : String) (io : Bool) (m : String) (deep : Bool)
    (h1 : cidr ≠ "all") (h2 : cidr ≠ "") :
    scan_network env (some cidr) io m deep = scanScalar env cidr io m deep := by
  simp [scan_network, resolveSubnet, discover_local_cidr, h1, h2]

/-- The arp-scan stage succeeds: backend list is just `["arp-scan"]` and
the base list is the normalized parse. -/
theorem runBackends_arp_ok (env : Env) (cidr : String) (io : Bool) (m : String)
    (hm : m = "arp-scan" ∨ (m = "auto" ∧ env.hasArpScan = true))
    (h : env.arpScan.1 = 0 ∧ env.arpScan.2 ≠ "") :
    runBackends env cidr io m =
      (["arp-scan"], .ok (normalizeRecords env (_parse_arp_scan env.arpScan.2))) := by
  have hres : resolveMethod env m = "arp-scan" := by
    rcases hm with rfl | ⟨rfl, ha⟩
    · simp [resolveMethod]
    · simp [resolveMethod, ha]
  unfold runBackends
  rw [hres]
  simp [h.1, h.2]

/-- The arp-scan stage fails (non-zero exit or empty output): the nmap
stage is skipped and the backend falls directly to the ping sweep. -/
theorem runBackends_arp_fail (env : Env) (cidr : String) (io : Bool) (m : String)
    (hm : m = "arp-scan" ∨ (m = "auto" ∧ env.hasArpScan = true))
    (h : env.arpScan.1 ≠ 0 ∨ env.arpScan.2 = "") :
    runBackends env cidr io m = (["arp-scan", "ping"], _ping_sweep env cidr io) := by
  have hres : resolveMethod env m = "arp-scan" := by
    rcases hm with rfl | ⟨rfl, ha⟩
    · simp [resolveMethod]
    · simp [resolveMethod, ha]
  rcases h with h | h
  · unfold runBackends
    rw [hres]
    simp [h]
  · unfold runBackends
    rw [hres]
    simp [h]

/-- The ping backend is selected directly. -/
theorem runBackends_ping (env : Env) (cidr : String) (io : Bool) :
    runBackends env cidr io "ping" = (["ping"], _ping_sweep env cidr io) := by
  simp [runBackends, resolveMethod]

/-- The scalar body once the backend stage produced a base list. -/
theorem scanScalar_eq_ok (env : Env) (cidr : String) (io : Bool) (m : String) (deep : Bool)
    (base : List Device) (hb : (runBackends env cidr io m).2 = .ok base) :
    scanScalar env cidr io m deep =
      .ok (coerceStatus
        (if deep then
          deepMerge env.oui (fillVendors env.oui (_merge_mac_vendor base env.neighbors))
            (env.ssdp ++ env.mdns)
            (discover_dhcp_leases env.dnsmasqLines env.dhcpdLines) io
        else fillVendors env.oui (_merge_mac_vendor base env.neighbors))) := by
  unfold scanScalar
  rw [hb]

/-!
### Claim theorems
-/

/-- C7: parsing the dnsmasq lease line
`1735689600 aa:bb:cc:dd:ee:ff 192.0.2.10 testhost *` and a dhcpd block
`lease 192.0.2.20 { ... hardware ethernet 00:11:22:33:44:55;
client-hostname "lab-device"; }` through `discover_dhcp_leases` yields the
two records of the claim, with the dnsmasq MAC uppercased by
normalization and the dhcpd MAC already canonical. -/
theorem dhcp_lease_parsing_c7 :
    discover_dhcp_leases
        ["1735689600 aa:bb:cc:dd:ee:ff 192.0.2.10 testhost *"]
        ["lease 192.0.2.20 \x7b",
         "  starts 4 2024/01/01 00:00:00;",
         "  hardware ethernet 00:11:22:33:44:55;",
         "  client-hostname \"lab-device\";",
         "\x7d"] =
      [{ ip := "192.0.2.10", mac := "AA:BB:CC:DD:EE:FF", name := "testhost" },
       { ip := "192.0.2.20", mac := "00:11:22:33:44:55", name := "lab-device" }] := by
  set_option maxRecDepth 100000 in decide

/-- C8: `_vendor_from_mac` returns the mapped vendor exactly when the
normalized MAC is canonical and its 3-octet prefix is in the OUI table;
it returns `None` for a canonical MAC with an absent prefix, for any
malformed MAC, and for `None` input — never raising. -/
theorem vendor_from_mac_spec_c8 (oui : List (String × String)) (m : String) :
    (_vendor_from_mac oui none = none) ∧
    (∀ v, isCanonicalMac (_normalize_mac m) = true →
      dictGet oui (macOui3 (_normalize_mac m)) = some v →
      _vendor_from_mac oui (some m) = some v) ∧
    (isCanonicalMac (_normalize_mac m) = true →
      dictGet oui (macOui3 (_normalize_mac m)) = none →
      _vendor_from_mac oui (some m) = none) ∧
    (isCanonicalMac (_normalize_mac m) = false →
      _vendor_from_mac oui (some m) = none) := by
  have hne : isCanonicalMac (_normalize_mac m) = true → m ≠ "" := by
    intro hcan h
    subst h
    exact absurd hcan (by decide)
  refine ⟨rfl, ?_, ?_, ?_⟩
  · intro v hcan hget
    unfold _vendor_from_mac
    simp [pyT, hne hcan, hcan, hget]
  · intro hcan hget
    unfold _vendor_from_mac
    simp [pyT, hne hcan, hcan, hget]
  · intro hcan
    by_cases hm : m = ""
    · subst hm; rfl
    · unfold _vendor_from_mac
      simp [pyT, hm, hcan]

/-- Witness for C8 on a concrete table and concrete well-formed,
unknown-prefix, malformed and absent MACs. -/
theorem vendor_from_mac_spec_c8_witness :
    _vendor_from_mac [("AA:BB:CC", "Acme")] (some "aa-bb-cc-dd-ee-ff") = some "Acme" ∧
    _vendor_from_mac [("AA:BB:CC", "Acme")] (some "11-22-33-44-55-66") = none ∧
    _vendor_from_mac [("AA:BB:CC", "Acme")] (some "garbage") = none ∧
    _vendor_from_mac [("AA:BB:CC", "Acme")] none = none :=
  ⟨(vendor_from_mac_spec_c8 [("AA:BB:CC", "Acme")] "aa-bb-cc-dd-ee-ff").2.1 "Acme"
      (by decide) (by decide),
   (vendor_from_mac_spec_c8 [("AA:BB:CC", "Acme")] "11-22-33-44-55-66").2.2.1
      (by decide) (by decide),
   (vendor_from_mac_spec_c8 [("AA:BB:CC", "Acme")] "garbage").2.2.2 (by decide),
   (vendor_from_mac_spec_c8 [("AA:BB:CC", "Acme")] "garbage").1⟩

/-- Base record of the C2 merge example
(`{ip: "203.0.113.5", name: "host5", type: "unknown", mac: None}`). -/
def c2Base : Device :=
  { ip := some "203.0.113.5", name := some "host5", type := some "unknown" }

/-- SSDP enrichment record of the C2 merge example. -/
def c2Extra : Device :=
  { ip := some "203.0.113.5", name := some "other", type := some "ssdp",
    mac := some "AA:BB:CC:DD:EE:FF" }

/-- C2 counterexample: merging the claim's base record with its SSDP
enrichment record keeps `name == "host5"` and adopts `type == "ssdp"`,
but does NOT adopt the enrichment MAC — the SSDP/mDNS merge loop only
fills `name` and `type`, so `mac` stays `None`, contradicting the claim's
`mac == "AA:BB:CC:DD:EE:FF"`. -/
theorem deep_merge_mac_not_adopted_c2 :
    deepMerge [] [c2Base] [c2Extra] [] false =
      [{ ip := some "203.0.113.5", name := some "host5", status := none,
         type := some "ssdp", mac := none, vendor := none }] ∧
    (deepMerge [] [c2Base] [c2Extra] [] false).map Device.mac ≠
      [some "AA:BB:CC:DD:EE:FF"] := by
  decide

/-- C2 (amended): in a deep-discovery merge onto an existing IP, an
SSDP/mDNS record fills only `name` (when the existing name is falsy) and
`type` (when currently `"unknown"`), leaving `status`, `mac` and `vendor`
untouched; `mac` and `vendor` are filled, only when currently unset, from
DHCP lease records alone; a field holding a concrete value is never
overwritten.  On the claim's example the merged record keeps
`name == "host5"`, adopts `type == "ssdp"`, and keeps `mac == None`. -/
theorem deep_merge_fill_rules_c2 (b e : Device) (oui : List (String × String)) (l : Lease) :
    ((mergeExtraInto b e).ip = b.ip ∧ (mergeExtraInto b e).status = b.status ∧
      (mergeExtraInto b e).mac = b.mac ∧ (mergeExtraInto b e).vendor = b.vendor) ∧
    (pyT b.name = true → (mergeExtraInto b e).name = b.name) ∧
    (b.type ≠ some "unknown" → (mergeExtraInto b e).type = b.type) ∧
    (b.type = some "unknown" → (mergeExtraInto b e).type = pyOr e.type (some "unknown")) ∧
    (pyT b.mac = true → (mergeLeaseInto oui b l).mac = b.mac) ∧
    (pyT b.mac = false → (mergeLeaseInto oui b l).mac = some l.mac) ∧
    (pyT b.name = true → (mergeLeaseInto oui b l).name = b.name) ∧
    (pyT b.vendor = true → (mergeLeaseInto oui b l).vendor = b.vendor) ∧
    deepMerge [] [c2Base] [c2Extra] [] false =
      [{ ip := some "203.0.113.5", name := some "host5", status := none,
         type := some "ssdp", mac := none, vendor := none }] := by
  refine ⟨⟨rfl, rfl, rfl, rfl⟩, ?_, ?_, ?_, ?_, ?_, ?_, ?_, by decide⟩
  · intro h
    simp [mergeExtraInto, pyOr, h]
  · intro h
    simp [mergeExtraInto, h]
  · intro h
    simp [mergeExtraInto, h]
  · intro h
    simp [mergeLeaseInto, pyOr, h, apply_ite Device.mac]
  · intro h
    simp [mergeLeaseInto, pyOr, h, apply_ite Device.mac]
  · intro h
    simp [mergeLeaseInto, pyOr, h, apply_ite Device.name]
  · intro h
    simp [mergeLeaseInto, pyOr, h, apply_ite Device.vendor]

/-- Witness for the C2 amended theorem at the example records. -/
theorem deep_merge_fill_rules_c2_witness :
    (mergeExtraInto c2Base c2Extra).name = c2Base.name ∧
    (mergeExtraInto c2Base c2Extra).type = pyOr c2Extra.type (some "unknown") ∧
    (mergeExtraInto c2Base c2Extra).mac = c2Base.mac :=
  ⟨(deep_merge_fill_rules_c2 c2Base c2Extra [] ⟨"192.0.2.9", "", ""⟩).2.1 (by decide),
   (deep_merge_fill_rules_c2 c2Base c2Extra [] ⟨"192.0.2.9", "", ""⟩).2.2.2.1 (by decide),
   (deep_merge_fill_rules_c2 c2Base c2Extra [] ⟨"192.0.2.9", "", ""⟩).1.2.2.1⟩

/-- Environment for C1: arp-scan and nmap both installed, arp-scan exits 1. -/
def c1Env : Env :=
  { hasArpScan := true, hasNmap := true, arpScan := (1, "") }

/-- C1 counterexample: with arp-scan present but failing (exit 1) and
nmap present, the backend stage tries exactly `["arp-scan", "ping"]` —
the active-discovery (nmap) backend is never attempted before the ping
sweep, contradicting the claimed scan-l2 → scan-discovery → ping order
(the call still returns a list, here empty, without raising). -/
theorem arp_fail_skips_nmap_c1 :
    (runBackends c1Env "192.0.2.0/30" false "auto").1 = ["arp-scan", "ping"] ∧
    "nmap" ∉ (runBackends c1Env "192.0.2.0/30" false "auto").1 ∧
    c1Env.hasNmap = true ∧
    scan_network c1Env (some "192.0.2.0/30") false "auto" false = .ok [] := by
  refine ⟨by decide, by decide, rfl, ?_⟩
  have h1 : scan_network c1Env (some "192.0.2.0/30") false "auto" false =
      scanScalar c1Env "192.0.2.0/30" false "auto" false :=
    scan_some_eq _ _ _ _ _ (by decide) (by decide)
  rw [h1]
  decide

/-- C1 (amended): when the resolved backend is arp-scan and it fails
(non-zero exit or empty output), scan_network falls through directly to
the ping sweep, skipping the nmap backend even when it is installed; with
a parseable CIDR no exception is raised to the caller. -/
theorem arp_fallthrough_c1 (env : Env) (cidr : String) (io : Bool) (m : String)
    (hm : m = "arp-scan" ∨ (m = "auto" ∧ env.hasArpScan = true))
    (hfail : env.arpScan.1 ≠ 0 ∨ env.arpScan.2 = "") :
    (runBackends env cidr io m).1 = ["arp-scan", "ping"] ∧
    "nmap" ∉ (runBackends env cidr io m).1 ∧
    (runBackends env cidr io m).2 = _ping_sweep env cidr io ∧
    (∀ net pl, parseCidr cidr = some (net, pl) →
      ∃ l, (runBackends env cidr io m).2 = .ok l) := by
  have h := runBackends_arp_fail env cidr io m hm hfail
  rw [h]
  refine ⟨rfl, ?_, rfl, ?_⟩
  · show ("nmap" : String) ∉ ["arp-scan", "ping"]
    decide
  intro net pl hp
  unfold _ping_sweep
  rw [hp]
  exact ⟨_, rfl⟩

/-- Witness for the C1 amended theorem at a concrete failing environment. -/
theorem arp_fallthrough_c1_witness :
    (runBackends c1Env "192.0.2.0/30" false "auto").1 = ["arp-scan", "ping"] ∧
    ∃ l, (runBackends c1Env "192.0.2.0/30" false "auto").2 = .ok l :=
  ⟨(arp_fallthrough_c1 c1Env "192.0.2.0/30" false "auto"
      (Or.inr ⟨rfl, rfl⟩) (Or.inl (by decide))).1,
   (arp_fallthrough_c1 c1Env "192.0.2.0/30" false "auto"
      (Or.inr ⟨rfl, rfl⟩) (Or.inl (by decide))).2.2.2 3221225984 30 (by decide)⟩

/-- Environment for C3: arp-scan succeeds and prints one lowercase-MAC
line; reverse DNS fails (falls back to the IP); no neighbors, empty OUI
table. -/
def c3Env : Env :=
  { arpScan := (0, "192.0.2.7\taa:bb:cc:dd:ee:ff\tAcme\n") }

/-- The record scan_network produces in the C3 environment. -/
def c3Rec : Device :=
  { name := some "192.0.2.7", ip := some "192.0.2.7", status := some "online",
    type := some "unknown", mac := some "aa:bb:cc:dd:ee:ff", vendor := some "Acme" }

/-- C3 counterexample: a lowercase MAC taken from arp-scan output appears
verbatim (still lowercase) in the final scan_network output, so the
returned `mac` does not match `^[0-9A-F]{2}(:[0-9A-F]{2}){5}$`. -/
theorem mac_not_normalized_c3 :
    scan_network c3Env (some "192.0.2.0/24") false "arp-scan" false = .ok [c3Rec] ∧
    c3Rec.mac = some "aa:bb:cc:dd:ee:ff" ∧
    isCanonicalMac "aa:bb:cc:dd:ee:ff" = false := by
  decide

/-- C3 (amended): scan_network does not normalize MACs — on the arp-scan
backend every returned `mac` is carried verbatim, either a raw token of
the arp-scan output or a raw ARP-neighbor-table value; only
DHCP-lease-derived MACs pass through `_normalize_mac` (uppercase,
hyphens to colons). -/
theorem mac_verbatim_c3 (env : Env) (cidr : String) (io : Bool)
    (hc : cidr ≠ "all" ∧ cidr ≠ "")
    (hok : env.arpScan.1 = 0 ∧ env.arpScan.2 ≠ "")
    (l : List Device)
    (hl : scan_network env (some cidr) io "arp-scan" false = .ok l) :
    (∀ d ∈ l, d.mac ∈ (_parse_arp_scan env.arpScan.2).map Device.mac ∨
      d.mac ∈ env.neighbors.map (fun kv => some kv.2)) ∧
    (∀ dn dh lease, lease ∈ discover_dhcp_leases dn dh → lease.mac ≠ "" →
      ∃ m0, lease.mac = _normalize_mac m0) := by
  constructor
  · have h1 : scan_network env (some cidr) io "arp-scan" false =
        scanScalar env cidr io "arp-scan" false :=
      scan_some_eq _ _ _ _ _ hc.1 hc.2
    have h2 := runBackends_arp_ok env cidr io "arp-scan" (Or.inl rfl) hok
    have h3 := scanScalar_eq_ok env cidr io "arp-scan" false
      (normalizeRecords env (_parse_arp_scan env.arpScan.2)) (by rw [h2])
    rw [h1, h3] at hl
    have hleq : coerceStatus (fillVendors env.oui
        (_merge_mac_vendor (normalizeRecords env (_parse_arp_scan env.arpScan.2))
          env.neighbors)) = l := by
      injection hl
    intro d hd
    rw [← hleq] at hd
    have hmac := List.mem_map_of_mem Device.mac hd
    rw [coerce_proj _ Device.mac (fun _ _ => rfl),
      fill_proj _ _ Device.mac (fun _ _ => rfl)] at hmac
    rcases List.mem_map.mp hmac with ⟨d2, hd2, hd2eq⟩
    rcases mmv_mac_mem _ env.neighbors d2 hd2 with h | h
    · rcases List.mem_map.mp h with ⟨d3, hd3, hd3eq⟩
      left
      rw [← hd2eq, ← hd3eq]
      exact normalize_mac_mem env _ d3 hd3
    · right
      rw [← hd2eq]
      exact h
  · intro dn dh lease hmem hne
    unfold discover_dhcp_leases at hmem
    rw [List.mem_map] at hmem
    obtain ⟨l0, hl0, rfl⟩ := hmem
    by_cases h0 : l0.mac = ""
    · simp [h0] at hne
    · exact ⟨l0.mac, by simp [h0]⟩

/-- Witness for the C3 amended theorem: the concrete lowercase MAC of the
`c3Env` scan traces back to the arp-scan output or the neighbor table. -/
theorem mac_verbatim_c3_witness :
    c3Rec.mac ∈ (_parse_arp_scan c3Env.arpScan.2).map Device.mac ∨
    c3Rec.mac ∈ c3Env.neighbors.map (fun kv => some kv.2) :=
  (mac_verbatim_c3 c3Env "192.0.2.0/24" false ⟨by decide, by decide⟩ ⟨rfl, by decide⟩
    [c3Rec] (by decide)).1 c3Rec (by decide)

/-- The record `_ping_sweep` builds for one host address. -/
def pingRecOf (env : Env) (h : Nat) : Device :=
  let ip := natToIp h
  let alive := env.pingAlive ip
  { ip := some ip,
    name := some (if alive then env.reverseDns ip else ip),
    status := some (if alive then "online" else "offline"),
    type := some "unknown" }

/-- A parseable CIDR string is neither `"all"` nor empty. -/
theorem parse_ne (cidr : String) (net pl : Nat) (hp : parseCidr cidr = some (net, pl)) :
    cidr ≠ "all" ∧ cidr ≠ "" := by
  constructor <;> intro h
  · subst h
    rw [show parseCidr "all" = none from by decide] at hp
    exact Option.noConfusion hp
  · subst h
    rw [show parseCidr "" = none from by decide] at hp
    exact Option.noConfusion hp

/-- With `include_offline`, the ping sweep records every host. -/
theorem ping_sweep_true_eq (env : Env) (cidr : String) (net pl : Nat)
    (hp : parseCidr cidr = some (net, pl)) :
    _ping_sweep env cidr true = .ok ((hostsOf net pl).map (pingRecOf env)) := by
  unfold _ping_sweep
  rw [hp]
  dsimp only
  congr 1
  induction hostsOf net pl with
  | nil => rfl
  | cons h t ih =>
    rw [List.filterMap_cons, List.map_cons, ih]
    simp [pingRecOf]

/-- Without `include_offline`, the ping sweep records only hosts whose
probe succeeded. -/
theorem ping_sweep_false_eq (env : Env) (cidr : String) (net pl : Nat)
    (hp : parseCidr cidr = some (net, pl)) :
    _ping_sweep env cidr false =
      .ok ((hostsOf net pl).filterMap (fun h =>
        if env.pingAlive (natToIp h) then some (pingRecOf env h) else none)) := by
  unfold _ping_sweep
  rw [hp]
  dsimp only
  congr 1
  induction hostsOf net pl with
  | nil => rfl
  | cons h t ih =>
    simp only [List.filterMap_cons]
    rw [ih]
    by_cases ha : env.pingAlive (natToIp h)
    · simp [ha, pingRecOf]
    · simp [ha]

/-- `fillVendors` keeps the list length. -/
theorem fill_length (oui : List (String × String)) (ds : List Device) :
    (fillVendors oui ds).length = ds.length := by
  unfold fillVendors
  rw [List.length_map]

/-- `coerceStatus` keeps the list length. -/
theorem coerce_length (ds : List Device) :
    (coerceStatus ds).length = ds.length := by
  unfold coerceStatus
  rw [List.length_map]

/-- The full ping-backend scan for an already-computed base list. -/
theorem scan_ping_eq (env : Env) (cidr : String) (io : Bool)
    (h1 : cidr ≠ "all") (h2 : cidr ≠ "") (base : List Device)
    (hb : _ping_sweep env cidr io = .ok base) :
    scan_network env (some cidr) io "ping" false =
      .ok (coerceStatus (fillVendors env.oui (_merge_mac_vendor base env.neighbors))) := by
  rw [scan_some_eq env cidr io "ping" false h1 h2]
  exact scanScalar_eq_ok env cidr io "ping" false base
    (by rw [runBackends_ping]; exact hb)

/-- C4: for every valid CIDR whose host capacity is at least 2,
`scan_network(cidr, include_offline=True, method="ping")` returns exactly
one record per host address of the network (network and broadcast
excluded by `hosts()`), and every record's status is `"online"` or
`"offline"`. -/
theorem ping_count_c4 (env : Env) (cidr : String) (net pl : Nat)
    (hp : parseCidr cidr = some (net, pl))
    (_hcap : 2 ≤ (hostsOf net pl).length) :
    ∃ l, scan_network env (some cidr) true "ping" false = .ok l ∧
      l.length = (hostsOf net pl).length ∧
      l.map Device.ip = (hostsOf net pl).map (fun h => some (natToIp h)) ∧
      ∀ d ∈ l, d.status = some "online" ∨ d.status = some "offline" := by
  obtain ⟨hall, hne⟩ := parse_ne cidr net pl hp
  have hbase := ping_sweep_true_eq env cidr net pl hp
  refine ⟨_, scan_ping_eq env cidr true hall hne _ hbase, ?_, ?_, coerce_status_valid _⟩
  · rw [coerce_length, fill_length, mmv_length, List.length_map]
  · rw [coerce_proj _ Device.ip (fun _ _ => rfl), fill_proj _ _ Device.ip (fun _ _ => rfl),
      mmv_proj _ _ Device.ip (fun _ _ => rfl), List.map_map]
    rfl

/-- Environment for the C4 witness: one live host on a /30. -/
def c4Env : Env :=
  { pingAlive := fun ip => ip = "192.0.2.1" }

/-- Witness for C4 on the /30 network `192.0.2.0/30` (two hosts). -/
theorem ping_count_c4_witness :
    ∃ l, scan_network c4Env (some "192.0.2.0/30") true "ping" false = .ok l ∧
      l.length = (hostsOf 3221225984 30).length ∧
      l.map Device.ip = (hostsOf 3221225984 30).map (fun h => some (natToIp h)) ∧
      ∀ d ∈ l, d.status = some "online" ∨ d.status = some "offline" :=
  ping_count_c4 c4Env "192.0.2.0/30" 3221225984 30 (by decide) (by decide)

/-- C5: for every valid CIDR, the `include_offline=False` ping scan
returns only online records, and (the ping outcomes being fixed by the
environment) its IPs form a subset of those of the `include_offline=True`
scan. -/
theorem ping_online_subset_c5 (env : Env) (cidr : String) (net pl : Nat)
    (hp : parseCidr cidr = some (net, pl)) :
    ∃ lf lt, scan_network env (some cidr) false "ping" false = .ok lf ∧
      scan_network env (some cidr) true "ping" false = .ok lt ∧
      (∀ d ∈ lf, d.status = some "online") ∧
      (∀ d ∈ lf, d.ip ∈ lt.map Device.ip) := by
  obtain ⟨hall, hne⟩ := parse_ne cidr net pl hp
  have hbt := ping_sweep_true_eq env cidr net pl hp
  have hbf := ping_sweep_false_eq env cidr net pl hp
  have hFstat : ∀ d ∈ (hostsOf net pl).filterMap (fun h =>
      if env.pingAlive (natToIp h) then some (pingRecOf env h) else none),
      d.status = some "online" := by
    intro d hd
    rcases List.mem_filterMap.mp hd with ⟨h, hh, hf⟩
    by_cases ha : env.pingAlive (natToIp h)
    · rw [if_pos ha] at hf
      cases hf
      show (pingRecOf env h).status = some "online"
      simp [pingRecOf, ha]
    · rw [if_neg ha] at hf
      exact Option.noConfusion hf
  have hmidstat : ∀ d ∈ fillVendors env.oui (_merge_mac_vendor
      ((hostsOf net pl).filterMap (fun h =>
        if env.pingAlive (natToIp h) then some (pingRecOf env h) else none)) env.neighbors),
      d.status = some "online" := by
    intro d hd
    have hmem := List.mem_map_of_mem Device.status hd
    rw [fill_proj _ _ Device.status (fun _ _ => rfl),
      mmv_proj _ _ Device.status (fun _ _ => rfl)] at hmem
    rcases List.mem_map.mp hmem with ⟨d0, hd0, heq⟩
    rw [← heq]
    exact hFstat d0 hd0
  have hcoe := coerce_keeps_valid _ (fun d hd => Or.inl (hmidstat d hd))
  refine ⟨_, _, scan_ping_eq env cidr false hall hne _ hbf,
    scan_ping_eq env cidr true hall hne _ hbt, ?_, ?_⟩
  · rw [hcoe]
    exact hmidstat
  · intro d hd
    rw [hcoe] at hd
    have hmem := List.mem_map_of_mem Device.ip hd
    rw [fill_proj _ _ Device.ip (fun _ _ => rfl),
      mmv_proj _ _ Device.ip (fun _ _ => rfl)] at hmem
    rcases List.mem_map.mp hmem with ⟨d0, hd0, hipeq⟩
    rcases List.mem_filterMap.mp hd0 with ⟨h, hh, hf⟩
    have hipval : d0.ip = some (natToIp h) := by
      by_cases ha : env.pingAlive (natToIp h)
      · rw [if_pos ha] at hf
        cases hf
        rfl
      · rw [if_neg ha] at hf
        exact Option.noConfusion hf
    have hmt : (coerceStatus (fillVendors env.oui (_merge_mac_vendor
        ((hostsOf net pl).map (pingRecOf env)) env.neighbors))).map Device.ip =
        (hostsOf net pl).map (fun h => some (natToIp h)) := by
      rw [coerce_proj _ Device.ip (fun _ _ => rfl), fill_proj _ _ Device.ip (fun _ _ => rfl),
        mmv_proj _ _ Device.ip (fun _ _ => rfl), List.map_map]
      rfl
    rw [hmt, ← hipeq, hipval]
    exact List.mem_map_of_mem _ hh

/-- Environment for the C5 witness: one live host on a /30. -/
def c5Env : Env :=
  { pingAlive := fun ip => ip = "192.0.2.1" }

/-- Witness for C5 on the /30 network `192.0.2.0/30`. -/
theorem ping_online_subset_c5_witness :
    ∃ lf lt, scan_network c5Env (some "192.0.2.0/30") false "ping" false = .ok lf ∧
      scan_network c5Env (some "192.0.2.0/30") true "ping" false = .ok lt ∧
      (∀ d ∈ lf, d.status = some "online") ∧
      (∀ d ∈ lf, d.ip ∈ lt.map Device.ip) :=
  ping_online_subset_c5 c5Env "192.0.2.0/30" 3221225984 30 (by decide)

/-- Inputs on which `scan_network` cannot raise: the `"all"` fan-out
(whose per-subnet exceptions are swallowed), an unresolvable subnet, or a
resolved CIDR that parses — with, in nmap mode, output whose
`MAC Address:` lines are well-formed. -/
def scanSafeInput (env : Env) (subnet : Option String) (m : String) : Prop :=
  subnet = some "all" ∨
    match resolveSubnet env subnet with
    | none => True
    | some c => parseCidr c ≠ none ∧
        (resolveMethod env m = "nmap" → (env.nmap c).1 = 0 ∧ (env.nmap c).2 ≠ "" →
          (_parse_nmap_sn (env.nmap c).2).toOption ≠ none)

/-- Every backend stage yields a base list under the safety conditions. -/
theorem runBackends_ok (env : Env) (c : String) (io : Bool) (m : String)
    (hc : parseCidr c ≠ none)
    (hn : resolveMethod env m = "nmap" → (env.nmap c).1 = 0 ∧ (env.nmap c).2 ≠ "" →
      (_parse_nmap_sn (env.nmap c).2).toOption ≠ none) :
    ∃ base, (runBackends env c io m).2 = .ok base := by
  have hping : ∃ base, _ping_sweep env c io = .ok base := by
    unfold _ping_sweep
    rcases hpc : parseCidr c with _ | ⟨net, pl⟩
    · exact absurd hpc hc
    · exact ⟨_, rfl⟩
  unfold runBackends
  by_cases h1 : resolveMethod env m = "arp-scan"
  · rw [h1]
    by_cases h2 : (decide (env.arpScan.1 = 0) && decide (env.arpScan.2 ≠ "")) = true
    · simp only [h2]
      simp
    · simp only [Bool.not_eq_true] at h2
      simp only [h2]
      simpa using hping
  · by_cases h3 : resolveMethod env m = "nmap"
    · rw [h3]
      by_cases h4 : (decide ((env.nmap c).1 = 0) && decide ((env.nmap c).2 ≠ "")) = true
      · rcases hpn : _parse_nmap_sn (env.nmap c).2 with e | parsed
        · exfalso
          exact hn h3 (by simpa [Bool.and_eq_true, decide_eq_true_eq] using h4)
            (by rw [hpn]; rfl)
        · simp only [h4, hpn]
          simp
      · simp only [Bool.not_eq_true] at h4
        simp only [h4]
        simpa using hping
    · by_cases h5 : resolveMethod env m = "ping"
      · rw [h5]
        simpa using hping
      · refine ⟨[], ?_⟩
        simp [h1, h3, h5]

/-- C6 counterexample: an unparseable subnet string reaches
`ipaddress.ip_network` inside `_ping_sweep` and the ValueError propagates
out of `scan_network` — the engine boundary does not stop every
exception (the HTTP layer above catches it and answers 500). -/
theorem scan_raises_on_bad_cidr_c6 :
    scan_network ({} : Env) (some "not-a-cidr") false "ping" false =
      .error "ValueError: does not appear to be an IPv4 or IPv6 network" ∧
    (scan_network ({} : Env) (some "not-a-cidr") false "ping" false).toOption = none := by
  decide

/-- C6 (amended): for every input whose subnet argument is `"all"`, is
unresolvable (scan returns `[]`), or resolves to a parseable CIDR (with,
in nmap mode, parseable nmap output), scan_network returns a list and
never raises; and with `method="auto"` and both the layer-2 tool and nmap
absent the backend stage runs exactly the ping sweep. -/
theorem scan_no_raise_c6 (env : Env) (subnet : Option String) (io deep : Bool) (m : String)
    (hsafe : scanSafeInput env subnet m) :
    (∃ l, scan_network env subnet io m deep = .ok l) ∧
    (m = "auto" → env.hasArpScan = false → env.hasNmap = false →
      ∀ c, resolveSubnet env subnet = some c → (runBackends env c io m).1 = ["ping"]) := by
  constructor
  · by_cases hall : subnet = some "all"
    · subst hall
      refine ⟨aggregateAll ((discover_all_local_cidrs env 30).map fun s =>
        match scanScalar env s io m deep with
        | .ok l => l
        | .error _ => []), ?_⟩
      unfold scan_network
      rw [if_pos rfl]
    · rcases hsafe with hsafe | hsafe
      · exact absurd hsafe hall
      · rcases hres : resolveSubnet env subnet with _ | c
        · refine ⟨[], ?_⟩
          unfold scan_network
          rw [if_neg hall, hres]
        · rw [hres] at hsafe
          obtain ⟨hc, hn⟩ := hsafe
          obtain ⟨base, hbase⟩ := runBackends_ok env c io m hc hn
          have heq : scan_network env subnet io m deep = scanScalar env c io m deep := by
            unfold scan_network
            rw [if_neg hall, hres]
          rw [heq]
          exact ⟨_, scanScalar_eq_ok env c io m deep base hbase⟩
  · intro hm ha hn c _
    subst hm
    simp [runBackends, resolveMethod, ha, hn]

/-- Environment for the C6 witness: no scan tools installed, local CIDR
resolvable. -/
def c6wEnv : Env :=
  { localCidr := some "192.0.2.0/30" }

/-- Witness for the C6 amended theorem: auto mode without arp-scan and
nmap resolves to the ping backend and returns a list. -/
theorem scan_no_raise_c6_witness :
    (∃ l, scan_network c6wEnv none false "auto" false = .ok l) ∧
    (runBackends c6wEnv "192.0.2.0/30" false "auto").1 = ["ping"] := by
  have hsafe : scanSafeInput c6wEnv none "auto" := by
    unfold scanSafeInput
    right
    constructor
    · decide
    · intro hm
      exact absurd hm (by decide)
  have h := scan_no_raise_c6 c6wEnv none false false "auto" hsafe
  exact ⟨h.1, h.2 rfl rfl rfl "192.0.2.0/30" (by decide)⟩

/-- Invariant of the `subnet == "all"` results dict: keys are distinct,
and every stored record carries its own nonempty key as `ip`. -/
def aggInv (idx : List (String × Device)) : Prop :=
  (idx.map Prod.fst).Nodup ∧ ∀ kv ∈ idx, kv.2.ip = some kv.1 ∧ kv.1 ≠ ""

/-- One aggregation step preserves the dict invariant. -/
theorem aggStep_inv (res : List (String × Device)) (dev : Device) (h : aggInv res) :
    aggInv (aggStep res dev) := by
  unfold aggStep
  cases hip : dev.ip with
  | none => exact h
  | some ip =>
    dsimp only
    split
    · rename_i hcond
      rw [Bool.and_eq_true, decide_eq_true_eq] at hcond
      obtain ⟨hne, hfind⟩ := hcond
      have hnotin : ip ∉ res.map Prod.fst := by
        intro hmem
        rcases List.mem_map.mp hmem with ⟨kv, hkv, hkv1⟩
        have := List.find?_eq_none.mp (Option.isNone_iff_eq_none.mp hfind) kv hkv
        exact this (by simpa using hkv1)
      constructor
      · rw [List.map_append]
        refine (List.nodup_append).mpr ⟨h.1, List.nodup_singleton ip, ?_⟩
        intro a ha hb
        rw [List.mem_singleton.mp hb] at ha
        exact hnotin ha
      · intro kv hkv
        rcases List.mem_append.mp hkv with h2 | h2
        · exact h.2 kv h2
        · rw [List.mem_singleton.mp h2]
          exact ⟨hip, hne⟩
    · exact h

/-- Folding a device list preserves the dict invariant. -/
theorem aggFold_inv (lst : List Device) (res : List (String × Device)) (h : aggInv res) :
    aggInv (lst.foldl aggStep res) := by
  induction lst generalizing res with
  | nil => exact h
  | cons d t ih => exact ih _ (aggStep_inv res d h)

/-- Folding every per-subnet list preserves the dict invariant. -/
theorem aggAllFold_inv (lists : List (List Device)) (res : List (String × Device))
    (h : aggInv res) :
    aggInv (lists.foldl (fun res lst => lst.foldl aggStep res) res) := by
  induction lists generalizing res with
  | nil => exact h
  | cons lst rest ih => exact ih _ (aggFold_inv lst res h)

/-- The complete `"all"` aggregation satisfies the dict invariant. -/
theorem aggAll_inv (lists : List (List Device)) :
    aggInv (lists.foldl (fun res lst => lst.foldl aggStep res) []) :=
  aggAllFold_inv lists [] ⟨List.nodup_nil, by intro kv h; cases h⟩

/-- C9: the `subnet="all"` aggregation returns each IP at most once — for
every completion order of the per-subnet futures (any list of per-subnet
result lists), the merged dict keyed by IP keeps only the first writer,
so the final IP column is duplicate-free; consequently every successful
`scan_network(subnet="all")` run returns a list with pairwise-distinct
IPs. -/
theorem scan_all_dedup_c9 :
    (∀ lists : List (List Device), ((aggregateAll lists).map Device.ip).Nodup) ∧
    (∀ (env : Env) (io : Bool) (m : String) (deep : Bool) (l : List Device),
      scan_network env (some "all") io m deep = .ok l → (l.map Device.ip).Nodup) := by
  have key : ∀ lists : List (List Device), ((aggregateAll lists).map Device.ip).Nodup := by
    intro lists
    unfold aggregateAll
    have hinv := aggAll_inv lists
    rw [List.map_map]
    have heq : (lists.foldl (fun res lst => lst.foldl aggStep res) []).map
        (Device.ip ∘ Prod.snd) =
        (lists.foldl (fun res lst => lst.foldl aggStep res) []).map
          (fun kv => some kv.1) :=
      List.map_congr_left fun kv hkv => (hinv.2 kv hkv).1
    rw [heq]
    have hcomp : (fun kv : String × Device => some kv.1) =
        (some ∘ Prod.fst : String × Device → Option String) := rfl
    rw [hcomp, ← List.map_map]
    exact hinv.1.map (fun a b h => Option.some.inj h)
  refine ⟨key, ?_⟩
  intro env io m deep l hl
  have heq : scan_network env (some "all") io m deep =
      .ok (aggregateAll ((discover_all_local_cidrs env 30).map fun s =>
        match scanScalar env s io m deep with
        | .ok lst => lst
        | .error _ => [])) := by
    unfold scan_network
    rw [if_pos rfl]
  rw [heq] at hl
  cases hl
  exact key _

/-- Address entry of the C9 witness interface. -/
def c9wAddr : AddrInfo :=
  { family := some "inet", addrLocal := some "192.0.2.1", prefixlen := some 30 }

/-- Interface of the C9 witness environment. -/
def c9wIface : Iface :=
  { ifname := some "eth0", addr_info := [c9wAddr] }

/-- Environment for the C9 witness: one discoverable /30. -/
def c9wEnv : Env :=
  { ifaces := some [c9wIface] }

/-- Witness for C9: a concrete `subnet="all"` run whose two returned IPs
are distinct. -/
theorem scan_all_dedup_c9_witness :
    (([{ name := some "192.0.2.1", ip := some "192.0.2.1", status := some "offline",
         type := some "unknown", mac := none, vendor := none },
       { name := some "192.0.2.2", ip := some "192.0.2.2", status := some "offline",
         type := some "unknown", mac := none, vendor := none }] : List Device).map
      Device.ip).Nodup :=
  scan_all_dedup_c9.2 c9wEnv true "ping" false _ (by decide)

/-!
### Claim C10: the subnet filter of `discover_all_local_cidrs`
-/

/-- Subnet containment `net/pl ⊆ base/basePl`. -/
def inNetRange (net pl base basePl : Nat) : Prop :=
  basePl ≤ pl ∧ applyMask net basePl = base

/-- The keep-condition asserted by the claim, in the spec's words: the
network is non-loopback, not link-local (169.254.0.0/16), not /31 or /32,
and not of a prefix coarser than /8 unless it falls within RFC1918
private space (10/8, 172.16/12, 192.168/16). -/
def specC10Keep (net pl : Nat) : Prop :=
  ¬ inNetRange net pl (127 * 2 ^ 24) 8 ∧
  ¬ inNetRange net pl (169 * 2 ^ 24 + 254 * 2 ^ 16) 16 ∧
  pl ≠ 31 ∧ pl ≠ 32 ∧
  (8 ≤ pl ∨ inNetRange net pl (10 * 2 ^ 24) 8 ∨
    inNetRange net pl (172 * 2 ^ 24 + 16 * 2 ^ 16) 12 ∨
    inNetRange net pl (192 * 2 ^ 24 + 168 * 2 ^ 16) 16)

/-- Address entry of the C10 counterexample: a public /8. -/
def c10Addr : AddrInfo :=
  { family := some "inet", addrLocal := some "5.1.2.3", prefixlen := some 8 }

/-- Interface of the C10 counterexample. -/
def c10Iface : Iface :=
  { ifname := some "eth0", addr_info := [c10Addr] }

/-- Environment of the C10 counterexample. -/
def c10Env : Env :=
  { ifaces := some [c10Iface] }

/-- C10 counterexample: the interface network 5.0.0.0/8 satisfies every
keep-condition of the claim (it is exactly /8, not coarser), yet
`discover_all_local_cidrs` drops it — the source tests `prefixlen <= 8`
(not `< 8`) against string prefixes `10.` / `172.` / `192.168.`, so a
public /8 is discarded and the result is empty. -/
theorem public_slash8_dropped_c10 :
    parseCidr "5.1.2.3/8" = some (5 * 2 ^ 24, 8) ∧
    specC10Keep (5 * 2 ^ 24) 8 ∧
    c10Env.ifaces = some [c10Iface] ∧
    discover_all_local_cidrs c10Env 30 = [] := by
  refine ⟨by decide, ?_, rfl, by decide⟩
  unfold specC10Keep inNetRange applyMask
  decide

/-- Order-preserving deduplication: the kept strings avoid `seen`, are
duplicate-free, and form a sublist of the input. -/
theorem dedupGo_spec (l : List String) : ∀ seen : List String,
    (dedupGo seen l).Sublist l ∧ (dedupGo seen l).Nodup ∧
    (∀ x, x ∈ dedupGo seen l ↔ x ∈ l ∧ x ∉ seen) := by
  induction l with
  | nil => intro seen; exact ⟨List.Sublist.refl _, List.nodup_nil, by simp [dedupGo]⟩
  | cons x xs ih =>
    intro seen
    unfold dedupGo
    by_cases hx : x ∈ seen
    · rw [if_pos hx]
      obtain ⟨hsub, hnd, hmem⟩ := ih seen
      refine ⟨hsub.cons x, hnd, ?_⟩
      intro y
      rw [hmem y]
      constructor
      · rintro ⟨hy, hys⟩
        exact ⟨List.mem_cons_of_mem x hy, hys⟩
      · rintro ⟨hy, hys⟩
        rcases List.mem_cons.mp hy with rfl | hy
        · exact absurd hx hys
        · exact ⟨hy, hys⟩
    · rw [if_neg hx]
      obtain ⟨hsub, hnd, hmem⟩ := ih (x :: seen)
      refine ⟨hsub.cons₂ x, ?_, ?_⟩
      · refine List.nodup_cons.mpr ⟨?_, hnd⟩
        intro hxin
        exact ((hmem x).mp hxin).2 (List.mem_cons_self x seen)
      · intro y
        constructor
        · intro hy
          rcases List.mem_cons.mp hy with rfl | hy
          · exact ⟨List.mem_cons_self y xs, hx⟩
          · obtain ⟨h1, h2⟩ := (hmem y).mp hy
            exact ⟨List.mem_cons_of_mem x h1, fun hc => h2 (List.mem_cons_of_mem x hc)⟩
        · rintro ⟨hy, hys⟩
          rcases List.mem_cons.mp hy with rfl | hy
          · exact List.mem_cons_self y _
          · by_cases hyx : y = x
            · subst hyx
              exact List.mem_cons_self y _
            · exact List.mem_cons_of_mem x ((hmem y).mpr
                ⟨hy, fun hc => (List.mem_cons.mp hc).elim hyx hys⟩)

/-- A nonempty list deduplicates to a nonempty list. -/
theorem dedupFirst_ne_nil (l : List String) (h : l ≠ []) : dedupFirst l ≠ [] := by
  cases l with
  | nil => exact absurd rfl h
  | cons x xs =>
    intro hc
    have := ((dedupGo_spec (x :: xs) []).2.2 x).mpr ⟨List.mem_cons_self x xs, by simp⟩
    rw [dedupFirst] at hc
    rw [hc] at this
    cases this

/-- C10 (amended): with at least one surviving candidate,
`discover_all_local_cidrs` returns exactly the first-occurrence
de-duplication of the candidate CIDRs — an interface address survives iff
its interface name is truthy and does not start with `lo`, the address
does not start with `127.`, the masked network string does not start with
`169.254.`, its prefix is at most `max_prefix` (default 30, dropping /31
and /32), and its prefix is either longer than /8 or the network string
starts with `10.`, `172.` or `192.168.` (string-prefix test, not RFC1918
containment; /8 itself is subject to the test) — with discovery order
preserved and duplicates removed. -/
theorem discover_all_cidrs_c10 (env : Env)
    (hne : cidrCandidates env 30 ≠ []) :
    discover_all_local_cidrs env 30 = dedupFirst (cidrCandidates env 30) ∧
    (discover_all_local_cidrs env 30).Nodup ∧
    (discover_all_local_cidrs env 30).Sublist (cidrCandidates env 30) ∧
    (∀ s, s ∈ discover_all_local_cidrs env 30 ↔ s ∈ cidrCandidates env 30) := by
  have h1 : discover_all_local_cidrs env 30 = dedupFirst (cidrCandidates env 30) := by
    unfold discover_all_local_cidrs
    rw [if_neg (dedupFirst_ne_nil _ hne)]
  obtain ⟨hsub, hnd, hmem⟩ := dedupGo_spec (cidrCandidates env 30) []
  refine ⟨h1, ?_, ?_, ?_⟩
  · rw [h1]; exact hnd
  · rw [h1]; exact hsub
  · intro s
    rw [h1, dedupFirst, hmem s]
    simp

/-- Address entries of the C10 witness (two addresses in one /30). -/
def c10wAddr1 : AddrInfo :=
  { family := some "inet", addrLocal := some "192.0.2.1", prefixlen := some 30 }

/-- Second address of the C10 witness. -/
def c10wAddr2 : AddrInfo :=
  { family := some "inet", addrLocal := some "192.0.2.2", prefixlen := some 30 }

/-- Interface of the C10 witness. -/
def c10wIface : Iface :=
  { ifname := some "eth0", addr_info := [c10wAddr1, c10wAddr2] }

/-- Environment of the C10 witness. -/
def c10wEnv : Env :=
  { ifaces := some [c10wIface] }

/-- Witness for the C10 amended theorem: duplicate candidates collapse to
one CIDR, order preserved. -/
theorem discover_all_cidrs_c10_witness :
    discover_all_local_cidrs c10wEnv 30 = dedupFirst (cidrCandidates c10wEnv 30) ∧
    (discover_all_local_cidrs c10wEnv 30).Nodup :=
  ⟨(discover_all_cidrs_c10 c10wEnv (by decide)).1,
   (discover_all_cidrs_c10 c10wEnv (by decide)).2.1⟩
